import Mathlib

/-!
Shallow embedding of `src/main.rs` of the asus-touchpad repository: the
coordinate-to-key geometry, the hot-zone tests, and the stateful
press/release controller (`NoTouch`), with Rust `i32` arithmetic modelled
over `Int` (unchecked operations wrap modulo `2^32`, checked operations
return `Option`), and the two fallible external resources (the virtual
keyboard `udev` and the I2C bus `device`) modelled by an explicit
environment of per-call outcomes and an event/command trace.
-/

/-! ### Rust i32 arithmetic -/

def i32min : Int := -(2 ^ 31)

def i32max : Int := 2 ^ 31 - 1

/-- Wrapping of a mathematical integer into the `i32` range, the release-mode
semantics of Rust's unchecked `+`, `-`, `*` on `i32`. -/
def wrap32 (n : Int) : Int := (n + 2 ^ 31) % 2 ^ 32 - 2 ^ 31

/-- Rust `i32::checked_sub`: `none` exactly when the difference leaves the
`i32` range. -/
def checkedSub (a b : Int) : Option Int :=
  if i32min ≤ a - b ∧ a - b ≤ i32max then some (a - b) else none

/-- Rust `i32::checked_div`: `none` on division by zero or on the one
overflowing case `i32::MIN / -1`; otherwise division truncating toward 0. -/
def checkedDiv (a b : Int) : Option Int :=
  if b = 0 ∨ (a = i32min ∧ b = -1) then none else some (Int.tdiv a b)

/-- Source `non_neg_sub`: checked subtraction, kept only when non-negative. -/
def non_neg_sub (a b : Int) : Option Int :=
  match checkedSub a b with
  | none => none
  | some x => if 0 ≤ x then some x else none

/-! ### Percent (src/main.rs lines 24-39) -/

/-- Source `Percent::div`: `(100 * what).checked_div(by).unwrap_or_default()`;
the multiplication is unchecked, hence wrapped. -/
def Percent.div (what d : Int) : Int :=
  (checkedDiv (wrap32 (100 * what)) d).getD 0

/-- Source `impl Mul<i32> for Percent`: `rhs * self.0 / 100` with an
unchecked multiplication. -/
def Percent.mul (p rhs : Int) : Int :=
  Int.tdiv (wrap32 (rhs * p)) 100

/-! ### Keys and the grid (src/main.rs lines 43-78) -/

/-- The evdev key identifiers the program uses. -/
inductive Key where
  | KEY_KP0
  | KEY_KP1
  | KEY_KP2
  | KEY_KP3
  | KEY_KP4
  | KEY_KP5
  | KEY_KP6
  | KEY_KP7
  | KEY_KP8
  | KEY_KP9
  | KEY_KPSLASH
  | KEY_KPASTERISK
  | KEY_KPMINUS
  | KEY_KPPLUS
  | KEY_KPDOT
  | KEY_KPENTER
  | KEY_KPEQUAL
  | KEY_BACKSPACE
  | KEY_5
  | KEY_LEFTSHIFT
  | KEY_NUMLOCK
  | KEY_CALC
deriving DecidableEq

/-- Linux input event codes of the keys (`Key::code()` in evdev). -/
def Key.code : Key → Nat
  | .KEY_KP0 => 82
  | .KEY_KP1 => 79
  | .KEY_KP2 => 80
  | .KEY_KP3 => 81
  | .KEY_KP4 => 75
  | .KEY_KP5 => 76
  | .KEY_KP6 => 77
  | .KEY_KP7 => 71
  | .KEY_KP8 => 72
  | .KEY_KP9 => 73
  | .KEY_KPSLASH => 98
  | .KEY_KPASTERISK => 55
  | .KEY_KPMINUS => 74
  | .KEY_KPPLUS => 78
  | .KEY_KPDOT => 83
  | .KEY_KPENTER => 96
  | .KEY_KPEQUAL => 117
  | .KEY_BACKSPACE => 14
  | .KEY_5 => 6
  | .KEY_LEFTSHIFT => 42
  | .KEY_NUMLOCK => 69
  | .KEY_CALC => 140

def COLS : Nat := 5

def ROWS : Nat := 4

def LEFT_OFFSET : Int := 7

def RIGHT_OFFSET : Int := 7

def TOP_OFFSET : Int := 10

def BOTTOM_OFFSET : Int := 4

/-- The 4-row by 5-column key table `KEYS`. -/
def KEYS : List (List Key) :=
  [[.KEY_KP7, .KEY_KP8, .KEY_KP9, .KEY_KPSLASH, .KEY_BACKSPACE],
   [.KEY_KP4, .KEY_KP5, .KEY_KP6, .KEY_KPASTERISK, .KEY_BACKSPACE],
   [.KEY_KP1, .KEY_KP2, .KEY_KP3, .KEY_KPMINUS, .KEY_5],
   [.KEY_KP0, .KEY_KPDOT, .KEY_KPENTER, .KEY_KPPLUS, .KEY_KPEQUAL]]

/-! ### The controller state (src/main.rs lines 221-232) -/

/-- The pure fields of the `NoTouch` struct (the two device handles are
modelled separately, by the effect environment). -/
structure NoTouch where
  minx : Int
  maxx : Int
  miny : Int
  maxy : Int
  x : Int
  y : Int
  pressed : Option Key
  numlock : Bool
deriving DecidableEq

namespace NoTouch

def width (s : NoTouch) : Int := wrap32 (s.maxx - s.minx)

def height (s : NoTouch) : Int := wrap32 (s.maxy - s.miny)

def left_percent (s : NoTouch) : Int := Percent.div (wrap32 (s.x - s.minx)) s.width

def right_percent (s : NoTouch) : Int := Percent.div (wrap32 (s.maxx - s.x)) s.width

def top_percent (s : NoTouch) : Int := Percent.div (wrap32 (s.y - s.miny)) s.height

def numlock_hit (s : NoTouch) : Bool :=
  decide (s.right_percent < 5) && decide (s.top_percent < 9)

def calculator_hit (s : NoTouch) : Bool :=
  decide (s.left_percent < 6) && decide (s.top_percent < 7)

def left_np (s : NoTouch) : Int := wrap32 (s.minx + Percent.mul LEFT_OFFSET s.width)

def right_np (s : NoTouch) : Int := wrap32 (s.maxx - Percent.mul RIGHT_OFFSET s.width)

def top_np (s : NoTouch) : Int := wrap32 (s.miny + Percent.mul TOP_OFFSET s.height)

def bottom_np (s : NoTouch) : Int := wrap32 (s.maxy - Percent.mul BOTTOM_OFFSET s.height)

def width_np (s : NoTouch) : Int := wrap32 (s.right_np - s.left_np)

def height_np (s : NoTouch) : Int := wrap32 (s.bottom_np - s.top_np)

/-- Source `column_raw`: guarded subtraction, unchecked multiplication by
`COLS`, checked division by `width_np() + 1`, checked conversion to `usize`;
each `?` of the source is an explicit `match` here. -/
def column_raw (s : NoTouch) : Option Nat :=
  match non_neg_sub s.x s.left_np with
  | none => none
  | some d =>
    match checkedDiv (wrap32 (d * 5)) (wrap32 (s.width_np + 1)) with
    | none => none
    | some q => if 0 ≤ q then some q.toNat else none

/-- Source `row_raw`: as `column_raw` with `ROWS` and the vertical span. -/
def row_raw (s : NoTouch) : Option Nat :=
  match non_neg_sub s.y s.top_np with
  | none => none
  | some d =>
    match checkedDiv (wrap32 (d * 4)) (wrap32 (s.height_np + 1)) with
    | none => none
    | some q => if 0 ≤ q then some q.toNat else none

/-- Source `column`: `row.get(self.column_raw()?).copied()`. -/
def column (s : NoTouch) (row : List Key) : Option Key :=
  match s.column_raw with
  | none => none
  | some c => row[c]?

/-- Source `row`: `KEYS.get(self.row_raw()?).copied()`. -/
def row (s : NoTouch) : Option (List Key) :=
  match s.row_raw with
  | none => none
  | some r => KEYS[r]?

/-- Source `key`: `self.column(self.row()?)`. -/
def key (s : NoTouch) : Option Key :=
  match s.row with
  | none => none
  | some l => s.column l

end NoTouch

/-! ### Effects: the virtual keyboard and the I2C bus

`udev.emit` and `device.transfer` are the two fallible external calls.
An `Env` fixes the outcome of each call in order (indexed separately per
device, defaulting to success); a `World` carries the `NoTouch` state, the
two call counters, the trace of successfully emitted input events, and the
trace of attempted I2C commands (`true` = the enable payload, whose one
differing byte is 0x01). An error result carries the state at the moment
of the early return, exactly as Rust's `?` leaves `self`. -/

/-- One input event as built by `InputEvent::new(type, code, value)`:
event type 1 is `KEY`, 0 is `SYNCHRONIZATION`. -/
structure Ev where
  etype : Nat
  code : Nat
  value : Int
deriving DecidableEq

def Ev.key (c : Nat) (v : Int) : Ev := ⟨1, c, v⟩

def Ev.syn : Ev := ⟨0, 0, 0⟩

/-- Outcomes of the external calls: `emits` for each `udev.emit` call in
order (`true` = Ok), `transfers` for each `device.transfer` call
(`none` = I/O error, `some t` = Ok with `t` messages transferred).
Past the end of a list, calls succeed (`transfer` acknowledging 1). -/
structure Env where
  emits : List Bool
  transfers : List (Option Nat)

/-- The environment in which every external call succeeds. -/
def envOk : Env := ⟨[], []⟩

/-- Outcome of the `n`-th `udev.emit` call. -/
def Env.emitOk (env : Env) (n : Nat) : Bool := env.emits.getD n true

/-- Outcome of the `n`-th `device.transfer` call. -/
def Env.transferRes (env : Env) (n : Nat) : Option Nat :=
  env.transfers.getD n (some 1)

structure World where
  nt : NoTouch
  ne : Nat
  ni : Nat
  trace : List Ev
  bus : List Bool
deriving DecidableEq

/-- A `udev.emit(&events)` call: on success the whole slice is written. -/
def emitW (env : Env) (w : World) (evs : List Ev) : Except World World :=
  if env.emitOk w.ne
  then .ok { w with ne := w.ne + 1, trace := w.trace ++ evs }
  else .error { w with ne := w.ne + 1 }

/-- A `device.transfer(&mut msgs)` call with the enable or disable payload:
returns the transfer count (or an I/O error) and records the attempt. -/
def transferW (env : Env) (w : World) (enable : Bool) : Option Nat × World :=
  (env.transferRes w.ni, { w with ni := w.ni + 1, bus := w.bus ++ [enable] })

/-- Source `NoTouch::activate`: transfer the enable payload, fail unless the
count is 1, then emit the NUM_LOCK indicator down event. -/
def activate (env : Env) (w : World) : Except World World :=
  match transferW env w true with
  | (none, w') => .error w'
  | (some t, w') =>
    if t = 1 then emitW env w' [Ev.key (Key.code .KEY_NUMLOCK) 1] else .error w'

/-- Source `NoTouch::deactivate`: emit the NUM_LOCK indicator up event, then
transfer the disable payload, failing unless the count is 1. -/
def deactivate (env : Env) (w : World) : Except World World :=
  match emitW env w [Ev.key (Key.code .KEY_NUMLOCK) 0] with
  | .error w' => .error w'
  | .ok w' =>
    match transferW env w' false with
    | (none, w'') => .error w''
    | (some t, w'') => if t = 1 then .ok w'' else .error w''

/-- Source `NoTouch::release`: `self.pressed.take()` first (so the held key
is cleared even when the emit then fails), then one emit of LEFTSHIFT up
followed by the held key's up event. -/
def release (env : Env) (w : World) : Except World World :=
  match w.nt.pressed with
  | none => .ok w
  | some button =>
    emitW env { w with nt := { w.nt with pressed := none } }
      [Ev.key (Key.code .KEY_LEFTSHIFT) 0, Ev.key (Key.code button) 0]

/-- Source `NoTouch::try_calculator`: one emit of the CALC down / SYN_REPORT
/ CALC up burst. -/
def try_calculator (env : Env) (w : World) : Except World World :=
  emitW env w [Ev.key (Key.code .KEY_CALC) 1, Ev.syn, Ev.key (Key.code .KEY_CALC) 0]

/-- Source `NoTouch::calculator`: runs `try_calculator` and swallows (logs)
its error. -/
def calculator (env : Env) (w : World) : World :=
  match try_calculator env w with
  | .ok w' => w'
  | .error w' => w'

/-- Source `NoTouch::press`: acts only when no key is held; the numlock
toggle zone is checked first (the flag is flipped, then the hardware and
indicator calls are made), then the calculator zone, then the grid. -/
def press (env : Env) (w : World) : Except World World :=
  match w.nt.pressed with
  | some _ => .ok w
  | none =>
    if w.nt.numlock_hit then
      let w' : World := { w with nt := { w.nt with numlock := !w.nt.numlock } }
      if w'.nt.numlock then activate env w' else deactivate env w'
    else if w.nt.calculator_hit then
      .ok (calculator env w)
    else if w.nt.numlock then
      match w.nt.key with
      | some k =>
        match (if k = Key.KEY_5
               then emitW env w [Ev.key (Key.code .KEY_LEFTSHIFT) 1,
                                 Ev.key (Key.code .KEY_5) 1]
               else emitW env w [Ev.key (Key.code k) 1]) with
        | .error w' => .error w'
        | .ok w' => .ok { w' with nt := { w'.nt with pressed := some k } }
      | none => .ok w
    else .ok w

/-- Source `impl Drop for NoTouch`: calls `deactivate` and swallows (logs)
its error. This is the whole teardown the controller runs at session end. -/
def dropNoTouch (env : Env) (w : World) : World :=
  match deactivate env w with
  | .ok w' => w'
  | .error w' => w'

/-- The operations `with_touchpad` dispatches to: BTN_TOOL_FINGER value 1 is
a touch-down (`press`), value 0 a touch-up (`release`), and the two
ABS_MT_POSITION axis events are plain assignments to `x` / `y`. -/
inductive Op where
  | press
  | release
  | setX (v : Int)
  | setY (v : Int)
deriving DecidableEq

def runOp (env : Env) (w : World) : Op → Except World World
  | .press => press env w
  | .release => release env w
  | .setX v => .ok { w with nt := { w.nt with x := v } }
  | .setY v => .ok { w with nt := { w.nt with y := v } }

/-- A batch of operations in arrival order; an error aborts the batch, as
`?` does inside the `with_touchpad` loop. -/
def runOps (env : Env) (w : World) : List Op → Except World World
  | [] => .ok w
  | op :: rest =>
    match runOp env w op with
    | .ok w' => runOps env w' rest
    | .error w' => .error w'

/-- The state carried by a result, whether or not it is an error (Rust's
`self` after an early return). -/
def resultWorld : Except World World → World
  | .ok w => w
  | .error w => w

def isErr : Except World World → Bool
  | .ok _ => false
  | .error _ => true

/-- A fresh `World` over a controller state, as built in `run()`. -/
def mkW (nt : NoTouch) : World := { nt := nt, ne := 0, ni := 0, trace := [], bus := [] }

/-! ### Concrete states used by the scenarios -/

/-- Scenario A state: bounds (0,1000,0,800), touch at (500,500), numpad
enabled, no key held. -/
def ntA : NoTouch :=
  { minx := 0, maxx := 1000, miny := 0, maxy := 800, x := 500, y := 500,
    pressed := none, numlock := true }

/-- Scenario B state: touch at (960,50) (inside the numlock toggle zone),
numpad disabled. -/
def ntToggleOff : NoTouch := { ntA with x := 960, y := 50, numlock := false }

/-- Scenario B state with the numpad enabled. -/
def ntToggleOn : NoTouch := { ntToggleOff with numlock := true }

/-- Scenario C state: touch at (40,40) (inside the shortcut zone), numpad
disabled. -/
def ntCalcZone : NoTouch := { ntA with x := 40, y := 40, numlock := false }

/-- A touch at (800,500): resolves to the overloaded "5" cell (row 2,
column 4). -/
def ntFive : NoTouch := { ntA with x := 800 }

/-- A state in which KP4 is currently held. -/
def ntHeld : NoTouch := { ntA with pressed := some Key.KEY_KP4 }

/-- Degenerate calibration (all bounds 0) with a large but valid i32
position, driving the unchecked multiplication in `column_raw` to wrap. -/
def ntWrap : NoTouch :=
  { minx := 0, maxx := 0, miny := 0, maxy := 0, x := 858993460, y := 0,
    pressed := none, numlock := true }

/-! ### C4 -/

/-- C4, counterexample: at bounds (0,1000,0,800) with the default offsets,
the touch (500,500) computes row 2 / column 2, and the key of that cell is
KP3 — not KP5 as the claim states. -/
theorem C4_kp5_counterexample :
    NoTouch.row_raw ntA = some 2 ∧ NoTouch.column_raw ntA = some 2 ∧
    NoTouch.key ntA = some Key.KEY_KP3 ∧
    NoTouch.key ntA ≠ some Key.KEY_KP5 := by decide

/-- C4, amended: with calibration bounds (0,1000,0,800) and the default
7/7/10/4 percent offsets, a touch-down at (500,500) while the numpad is
enabled resolves through the grid to row 2 / column 2, whose key is KP3
(the third key of the row [KP1, KP2, KP3, KPMINUS, 5]); the press emits the
KP3 down event and records KP3 as held. -/
theorem C4_scenarioA_resolves_kp3 :
    NoTouch.row_raw ntA = some 2 ∧ NoTouch.column_raw ntA = some 2 ∧
    isErr (press envOk (mkW ntA)) = false ∧
    resultWorld (press envOk (mkW ntA)) = { mkW ntA with
      ne := 1
      trace := [Ev.key (Key.code .KEY_KP3) 1]
      nt := { ntA with pressed := some Key.KEY_KP3 } } := by decide

/-! ### C10 -/

/-- C10, counterexample: at the degenerate bounds (0,0,0,0) the in-range
i32 position x = 858993460 makes `(x - left) * COLS` wrap to 4, which
divides to the valid column index 4, and the lookup resolves to a key
(BACKSPACE) instead of returning none. -/
theorem C10_wrap_counterexample :
    (0 ≤ ntWrap.x ∧ ntWrap.x ≤ i32max) ∧
    NoTouch.column_raw ntWrap = some 4 ∧ NoTouch.row_raw ntWrap = some 0 ∧
    NoTouch.key ntWrap = some Key.KEY_BACKSPACE := by decide

/-- Every row of the key table has the 5 columns. -/
theorem keys_mem_length (l : List Key) (hl : l ∈ KEYS) : l.length = 5 := by
  fin_cases hl <;> rfl

theorem mem_of_some_getElem {α : Type} (l : List α) (n : Nat) (a : α)
    (h : l[n]? = some a) : a ∈ l := by
  obtain ⟨hlt, rfl⟩ := List.getElem?_eq_some.mp h
  exact List.getElem_mem hlt

/-- C10, amended: for every position and calibration bounds the row, column
and key computations are total and guarded — either the lookup returns
`none`, or it returns a key at computed indices inside the 4x5 grid (the
division is checked, a negative or missing index yields `none`); but the
multiplications by COLS/ROWS are unchecked, so for degenerate bounds a
wrapped product can still land on a valid index. -/
theorem C10_lookup_guarded (s : NoTouch) :
    s.key = none ∨
    ∃ r c k, s.row_raw = some r ∧ r < 4 ∧ s.column_raw = some c ∧ c < 5 ∧
      s.key = some k := by
  cases hkey : s.key with
  | none => exact Or.inl rfl
  | some k =>
    right
    unfold NoTouch.key at hkey
    cases hrow : s.row with
    | none => rw [hrow] at hkey; exact absurd hkey (by simp)
    | some l =>
      rw [hrow] at hkey
      have hrow' := hrow
      unfold NoTouch.row at hrow'
      cases hr : s.row_raw with
      | none => rw [hr] at hrow'; exact absurd hrow' (by simp)
      | some r =>
        rw [hr] at hrow'
        unfold NoTouch.column at hkey
        cases hc : s.column_raw with
        | none => rw [hc] at hkey; exact absurd hkey (by simp)
        | some c =>
          rw [hc] at hkey
          refine ⟨r, c, k, rfl, ?_, rfl, ?_, ?_⟩
          · have := (List.getElem?_eq_some.mp hrow').1
            simpa [KEYS] using this
          · have hlen := keys_mem_length l (mem_of_some_getElem _ _ _ hrow')
            have := (List.getElem?_eq_some.mp hkey).1
            omega
          · rfl

/-! ### C7 -/

theorem non_neg_sub_of_lt (a b : Int) (h : a < b) : non_neg_sub a b = none := by
  unfold non_neg_sub checkedSub
  split
  · rfl
  next x heq =>
    split at heq
    · cases heq
      rw [if_neg (by omega)]
    · cases heq

theorem key_none_of_column_raw (s : NoTouch) (h : s.column_raw = none) :
    s.key = none := by
  unfold NoTouch.key NoTouch.column
  cases hx : s.row <;> simp [h]

theorem key_none_of_row (s : NoTouch) (h : s.row = none) : s.key = none := by
  unfold NoTouch.key
  rw [h]

/-- C7: a position left of the grid sub-rectangle's left boundary or above
its top boundary never resolves to a key (the guarded subtraction returns
`none` on any negative offset), and a computed row or column index outside
the 4x5 grid makes the lookup return `none` rather than wrapping. -/
theorem C7_key_none_outside_grid (s : NoTouch) :
    (s.x < s.left_np ∨ s.y < s.top_np → s.key = none) ∧
    (∀ r, s.row_raw = some r → 4 ≤ r → s.key = none) ∧
    (∀ c, s.column_raw = some c → 5 ≤ c → s.key = none) := by
  refine ⟨?_, ?_, ?_⟩
  · rintro (h | h)
    · apply key_none_of_column_raw
      unfold NoTouch.column_raw
      rw [non_neg_sub_of_lt _ _ h]
    · apply key_none_of_row
      unfold NoTouch.row NoTouch.row_raw
      rw [non_neg_sub_of_lt _ _ h]
  · intro r hr h4
    apply key_none_of_row
    unfold NoTouch.row
    rw [hr]
    exact List.getElem?_eq_none (by simpa [KEYS] using h4)
  · intro c hc h5
    cases hrow : s.row with
    | none => exact key_none_of_row s hrow
    | some l =>
      have hlen : l.length = 5 := by
        have hrow' := hrow
        unfold NoTouch.row at hrow'
        cases hr : s.row_raw with
        | none => rw [hr] at hrow'; exact absurd hrow' (by simp)
        | some r =>
          rw [hr] at hrow'
          exact keys_mem_length l (mem_of_some_getElem _ _ _ hrow')
      unfold NoTouch.key
      rw [hrow]
      show s.column l = none
      unfold NoTouch.column
      rw [hc]
      exact List.getElem?_eq_none (by omega)

/-- C7, witness: a touch at x = 10 (left of the boundary 70) resolves to no
key. -/
theorem C7_key_none_witness :
    ((10 : Int) < NoTouch.left_np { ntA with x := 10 } ∨
      (500 : Int) < NoTouch.top_np { ntA with x := 10 }) ∧
    NoTouch.key { ntA with x := 10 } = none :=
  ⟨Or.inl (by decide),
   (C7_key_none_outside_grid { ntA with x := 10 }).1 (Or.inl (by decide))⟩

/-! ### Frame lemmas for the toggle path -/

theorem emitW_nt (env : Env) (w : World) (evs : List Ev) :
    (resultWorld (emitW env w evs)).nt = w.nt := by
  unfold emitW
  split <;> rfl

theorem activate_nt (env : Env) (w : World) :
    (resultWorld (activate env w)).nt = w.nt := by
  unfold activate transferW emitW
  cases h : env.transferRes w.ni with
  | none => simp [h, resultWorld]
  | some t =>
    by_cases ht : t = 1 <;> cases he : env.emitOk w.ne <;>
      simp [h, ht, he, resultWorld]

theorem deactivate_nt (env : Env) (w : World) :
    (resultWorld (deactivate env w)).nt = w.nt := by
  unfold deactivate emitW transferW
  cases he : env.emitOk w.ne with
  | false => simp [he, resultWorld]
  | true =>
    cases h : env.transferRes w.ni with
    | none => simp [he, h, resultWorld]
    | some t => by_cases ht : t = 1 <;> simp [he, h, ht, resultWorld]

/-! ### C1 -/

/-- C1, counterexample: at a toggle-zone touch-down with the hardware
transfer acknowledging 0 messages, `press` returns an error but the
`numlock` flag has already been flipped from `false` to `true` — the claim
says it must be unchanged. -/
theorem C1_partial_toggle_counterexample :
    ntToggleOff.numlock = false ∧
    isErr (press ⟨[], [some 0]⟩ (mkW ntToggleOff)) = true ∧
    (resultWorld (press ⟨[], [some 0]⟩ (mkW ntToggleOff))).nt.numlock = true := by
  decide

/-- C1, amended: for every toggle-zone touch-down with no key held, the
`numlock` flag is flipped before the hardware command is issued, so it ends
as the negation of its previous value whether or not the hardware write and
the indicator emission succeed; a hardware write acknowledging 0 messages
still makes the call return an error. -/
theorem C1_flag_flipped_regardless (env : Env) (w : World)
    (hp : w.nt.pressed = none) (hz : w.nt.numlock_hit = true) :
    (resultWorld (press env w)).nt.numlock = !w.nt.numlock ∧
    (w.nt.numlock = false → env.transferRes w.ni = some 0 →
      isErr (press env w) = true) := by
  constructor
  · unfold press
    rw [hp]
    cases hb : w.nt.numlock <;> simp [hz, hb, activate_nt, deactivate_nt]
  · intro hb ht
    unfold press
    rw [hp]
    simp only [hz, hb, Bool.not_false, if_true]
    unfold activate transferW
    simp [ht, isErr]

/-- C1, witness: the amended claim at the concrete failing-transfer state. -/
theorem C1_flag_flipped_witness :
    (mkW ntToggleOff).nt.pressed = none ∧
    (resultWorld (press ⟨[], [some 0]⟩ (mkW ntToggleOff))).nt.numlock =
      !(mkW ntToggleOff).nt.numlock ∧
    isErr (press ⟨[], [some 0]⟩ (mkW ntToggleOff)) = true :=
  ⟨by decide,
   (C1_flag_flipped_regardless ⟨[], [some 0]⟩ (mkW ntToggleOff)
      (by decide) (by decide)).1,
   (C1_flag_flipped_regardless ⟨[], [some 0]⟩ (mkW ntToggleOff)
      (by decide) (by decide)).2 (by decide) (by decide)⟩

/-! ### C2 -/

/-- C2, counterexample: teardown of a state holding KP4 emits only the
NUM_LOCK indicator-off event — no key-up for the held key is ever emitted
and `pressed` stays `some KP4`; and when the indicator emission fails, the
hardware disable command is never attempted (`bus` stays empty), so a
cleanup failure does abort the remaining cleanup step. -/
theorem C2_teardown_counterexample :
    (mkW ntHeld).nt.pressed = some Key.KEY_KP4 ∧
    dropNoTouch envOk (mkW ntHeld) =
      { mkW ntHeld with
        ne := 1
        ni := 1
        trace := [Ev.key 69 0]
        bus := [false] } ∧
    dropNoTouch ⟨[false], []⟩ (mkW ntHeld) = { mkW ntHeld with ne := 1 } := by
  decide

/-- C2, amended: the controller teardown (Drop) runs `deactivate` only: it
leaves the whole controller state (`pressed` included) unchanged and emits
no key-up for a held key; when the indicator emission succeeds it emits the
NUM_LOCK-off event and then attempts the hardware disable command; when the
indicator emission fails it stops there — the disable command is not
attempted — and only the top-level error is swallowed (logged). -/
theorem C2_teardown_deactivate_only (env : Env) (w : World) :
    (dropNoTouch env w).nt = w.nt ∧
    (env.emitOk w.ne = true →
      (dropNoTouch env w).trace =
        w.trace ++ [Ev.key (Key.code .KEY_NUMLOCK) 0] ∧
      (dropNoTouch env w).bus = w.bus ++ [false]) ∧
    (env.emitOk w.ne = false →
      (dropNoTouch env w).trace = w.trace ∧ (dropNoTouch env w).bus = w.bus) := by
  unfold dropNoTouch deactivate emitW transferW
  cases he : env.emitOk w.ne with
  | false => simp [he]
  | true =>
    cases h : env.transferRes w.ni with
    | none => simp [he, h]
    | some t => by_cases ht : t = 1 <;> simp [he, h, ht]

/-- C2, witness: the teardown behaviour at the concrete held-key state. -/
theorem C2_teardown_witness :
    (dropNoTouch envOk (mkW ntHeld)).nt = (mkW ntHeld).nt ∧
    (dropNoTouch envOk (mkW ntHeld)).trace =
      (mkW ntHeld).trace ++ [Ev.key (Key.code .KEY_NUMLOCK) 0] :=
  ⟨(C2_teardown_deactivate_only envOk (mkW ntHeld)).1,
   ((C2_teardown_deactivate_only envOk (mkW ntHeld)).2.1 (by decide)).1⟩

/-! ### C6 -/

/-- C6, counterexample: two consecutive touch-downs in the toggle zone with
no intervening touch-up both act: the second one toggles the numpad back
off and emits another indicator event, so it is not a no-op. -/
theorem C6_repeat_toggle_counterexample :
    isErr (runOps envOk (mkW ntToggleOff) [.press, .press]) = false ∧
    resultWorld (runOps envOk (mkW ntToggleOff) [.press, .press]) =
      { mkW ntToggleOff with
        ne := 2
        ni := 2
        trace := [Ev.key 69 1, Ev.key 69 0]
        bus := [true, false] } ∧
    resultWorld (runOps envOk (mkW ntToggleOff) [.press, .press]) ≠
      resultWorld (runOps envOk (mkW ntToggleOff) [.press]) := by decide

/-- C6, amended: a touch-down is ignored exactly while a key is held: with
`pressed = some k`, any number of consecutive touch-downs with no
intervening touch-up leaves the state, the traces and the result completely
unchanged (hot-zone touch-downs that hold no key can act repeatedly). -/
theorem C6_press_noop_while_held (env : Env) (w : World) (k : Key) (n : Nat)
    (h : w.nt.pressed = some k) :
    runOps env w (List.replicate n .press) = .ok w := by
  induction n with
  | zero => rfl
  | succ m ih =>
    have hp : press env w = .ok w := by
      unfold press
      rw [h]
    rw [List.replicate_succ]
    unfold runOps runOp
    rw [hp]
    exact ih

/-- C6, witness: three touch-downs while KP4 is held change nothing. -/
theorem C6_press_noop_witness :
    (mkW ntHeld).nt.pressed = some Key.KEY_KP4 ∧
    runOps envOk (mkW ntHeld) (List.replicate 3 .press) = .ok (mkW ntHeld) :=
  ⟨by decide,
   C6_press_noop_while_held envOk (mkW ntHeld) Key.KEY_KP4 3 (by decide)⟩

/-! ### C5 -/

/-- C5, counterexample: the press of the overloaded "5" cell does emit
Shift-down then 5-down as one pair, but the matching touch-up emits
Shift-up BEFORE 5-up (the claim says 5-up followed by Shift-up), and the
touch-up of a non-modified held key (KP4) also emits a Shift-up (the claim
says only the matching key-up). -/
theorem C5_release_order_counterexample :
    NoTouch.key ntFive = some Key.KEY_5 ∧
    isErr (runOps envOk (mkW ntFive) [.press, .release]) = false ∧
    resultWorld (runOps envOk (mkW ntFive) [.press, .release]) =
      { mkW ntFive with
        ne := 2
        trace := [Ev.key 42 1, Ev.key 6 1, Ev.key 42 0, Ev.key 6 0] } ∧
    [Ev.key 42 0, Ev.key 6 0] ≠ [Ev.key 6 0, Ev.key 42 0] ∧
    resultWorld (release envOk (mkW ntHeld)) =
      { mkW ntHeld with
        ne := 1
        trace := [Ev.key 42 0, Ev.key 75 0]
        nt := { ntHeld with pressed := none } } := by decide

/-- C5, amended: a touch-down resolving to the overloaded "5" cell emits
Shift-down followed by 5-down as a single atomic pair and records the key
as held; every touch-up of a held key emits, in one atomic pair, Shift-up
followed by the held key's up event — the Shift-up is emitted
unconditionally, whether or not the press was modified. -/
theorem C5_shift_pair_and_release_order :
    (∀ env w, w.nt.pressed = none → w.nt.numlock_hit = false →
      w.nt.calculator_hit = false → w.nt.numlock = true →
      w.nt.key = some Key.KEY_5 → env.emitOk w.ne = true →
      press env w = .ok { w with
        ne := w.ne + 1
        trace := w.trace ++
          [Ev.key (Key.code .KEY_LEFTSHIFT) 1, Ev.key (Key.code .KEY_5) 1]
        nt := { w.nt with pressed := some Key.KEY_5 } }) ∧
    (∀ env w k, w.nt.pressed = some k → env.emitOk w.ne = true →
      release env w = .ok { w with
        ne := w.ne + 1
        trace := w.trace ++
          [Ev.key (Key.code .KEY_LEFTSHIFT) 0, Ev.key (Key.code k) 0]
        nt := { w.nt with pressed := none } }) := by
  constructor
  · intro env w hp h1 h2 hn hk he
    unfold press
    rw [hp]
    simp only [h1, h2, hn, Bool.false_eq_true, if_false, if_true]
    rw [hk]
    simp [emitW, he, hn]
  · intro env w k hp he
    unfold release
    rw [hp]
    simp [emitW, he]

/-- C5, witness: the modified press at the "5" cell and the release of the
held KP4. -/
theorem C5_shift_pair_witness :
    press envOk (mkW ntFive) = .ok { mkW ntFive with
      ne := 1
      trace := [Ev.key (Key.code .KEY_LEFTSHIFT) 1, Ev.key (Key.code .KEY_5) 1]
      nt := { ntFive with pressed := some Key.KEY_5 } } ∧
    release envOk (mkW ntHeld) = .ok { mkW ntHeld with
      ne := 1
      trace := [Ev.key (Key.code .KEY_LEFTSHIFT) 0,
                Ev.key (Key.code Key.KEY_KP4) 0]
      nt := { ntHeld with pressed := none } } :=
  ⟨C5_shift_pair_and_release_order.1 envOk (mkW ntFive) (by decide) (by decide)
     (by decide) (by decide) (by decide) (by decide),
   C5_shift_pair_and_release_order.2 envOk (mkW ntHeld) Key.KEY_KP4
     (by decide) (by decide)⟩

/-! ### C9 -/

/-- C9, counterexample: a failing emission of the shortcut-zone burst is
swallowed — `press` still returns Ok (with nothing emitted), not an error
as the claim requires. -/
theorem C9_swallowed_burst_counterexample :
    NoTouch.calculator_hit ntCalcZone = true ∧
    Env.emitOk ⟨[false], []⟩ 0 = false ∧
    isErr (press ⟨[false], []⟩ (mkW ntCalcZone)) = false ∧
    resultWorld (press ⟨[false], []⟩ (mkW ntCalcZone)) =
      { mkW ntCalcZone with ne := 1 } := by decide

/-- C9, amended: emission failures in the toggle-zone indicator and in the
grid-key branch propagate as errors out of `press`, but a failure of the
shortcut-zone burst is logged and swallowed: `press` returns Ok and the
failed burst emits nothing. -/
theorem C9_emit_failure_propagation :
    (∀ env w, w.nt.pressed = none → w.nt.numlock_hit = false →
      w.nt.calculator_hit = true → press env w = .ok (calculator env w)) ∧
    (∀ env w, env.emitOk w.ne = false →
      calculator env w = { w with ne := w.ne + 1 }) ∧
    (∀ env w k, w.nt.pressed = none → w.nt.numlock_hit = false →
      w.nt.calculator_hit = false → w.nt.numlock = true → w.nt.key = some k →
      env.emitOk w.ne = false →
      press env w = .error { w with ne := w.ne + 1 }) ∧
    (∀ env w, w.nt.pressed = none → w.nt.numlock_hit = true →
      w.nt.numlock = false → env.transferRes w.ni = some 1 →
      env.emitOk w.ne = false → isErr (press env w) = true) := by
  refine ⟨?_, ?_, ?_, ?_⟩
  · intro env w hp h1 h2
    unfold press
    rw [hp]
    simp [h1, h2]
  · intro env w he
    unfold calculator try_calculator emitW
    simp [he]
  · intro env w k hp h1 h2 hn hk he
    unfold press
    rw [hp]
    simp only [h1, h2, hn, Bool.false_eq_true, if_false, if_true]
    rw [hk]
    by_cases hk5 : k = Key.KEY_5 <;> simp [hk5, emitW, he, hn]
  · intro env w hp h1 hb ht he
    unfold press
    rw [hp]
    simp only [h1, hb, Bool.not_false, if_true, Bool.false_eq_true, if_false]
    unfold activate transferW emitW
    simp [ht, he, isErr]

/-- C9, witness: the four parts of the amended failure contract at concrete
states — the swallowed shortcut burst, the empty failed burst, the grid
branch propagating its error, and the toggle branch propagating its
indicator failure. -/
theorem C9_emit_failure_witness :
    press ⟨[false], []⟩ (mkW ntCalcZone) =
      .ok (calculator ⟨[false], []⟩ (mkW ntCalcZone)) ∧
    calculator ⟨[false], []⟩ (mkW ntCalcZone) = { mkW ntCalcZone with ne := 1 } ∧
    press ⟨[false], []⟩ (mkW ntA) = .error { mkW ntA with ne := 1 } ∧
    isErr (press ⟨[false], []⟩ (mkW ntToggleOff)) = true :=
  ⟨C9_emit_failure_propagation.1 ⟨[false], []⟩ (mkW ntCalcZone)
     (by decide) (by decide) (by decide),
   C9_emit_failure_propagation.2.1 ⟨[false], []⟩ (mkW ntCalcZone) (by decide),
   C9_emit_failure_propagation.2.2.1 ⟨[false], []⟩ (mkW ntA) Key.KEY_KP3
     (by decide) (by decide) (by decide) (by decide) (by decide) (by decide),
   C9_emit_failure_propagation.2.2.2 ⟨[false], []⟩ (mkW ntToggleOff)
     (by decide) (by decide) (by decide) (by decide) (by decide)⟩

/-! ### C8 -/

/-- Modelled from the spec (4.1 Geometry): `percentOf(value, total)` is
`(100 * value) / total` in exact integer arithmetic with truncating
division, saturating to 0 when `total` is 0. Used to compare the spec's
hot-zone definition with the code's. -/
def percentOf (value total : Int) : Int :=
  if total = 0 then 0 else Int.tdiv (100 * value) total

theorem wrap32_eq_self (n : Int) (h1 : i32min ≤ n) (h2 : n ≤ i32max) :
    wrap32 n = n := by
  have e1 : i32min = -2147483648 := by norm_num [i32min]
  have e2 : i32max = 2147483647 := by norm_num [i32max]
  unfold wrap32
  have p31 : (2 : Int) ^ 31 = 2147483648 := by norm_num
  have p32 : (2 : Int) ^ 32 = 4294967296 := by norm_num
  rw [p31, p32, Int.emod_eq_of_lt (by omega) (by omega)]
  omega

theorem Percent_div_eq_percentOf (what d : Int)
    (h1 : -21474836 ≤ what) (h2 : what ≤ 21474836) :
    Percent.div what d = percentOf what d := by
  have e1 : i32min = -2147483648 := by norm_num [i32min]
  have e2 : i32max = 2147483647 := by norm_num [i32max]
  have hw : wrap32 (100 * what) = 100 * what :=
    wrap32_eq_self _ (by omega) (by omega)
  unfold Percent.div checkedDiv percentOf
  rw [hw]
  by_cases hd : d = 0
  · simp [hd]
  · have hnot : ¬(d = 0 ∨ (100 * what = i32min ∧ d = -1)) := by
      push_neg
      exact ⟨hd, fun hmin => absurd hmin (by omega)⟩
    rw [if_neg hnot, if_neg hd]
    rfl

/-- C8: within the i32-exact range, the code's numlock-toggle zone is
exactly distance-from-right-edge below 5 percent and distance-from-top-edge
below 9 percent, and the shortcut zone exactly below 6 and 7 percent, with
the spec's `percentOf`; and concretely a touch-down at (960,50) with bounds
(0,1000,0,800) triggers the toggle (and not a grid key) for both values of
the numpad flag: the only event emitted is the NUM_LOCK indicator and no
key is recorded as held. -/
theorem C8_hot_zones :
    (∀ s : NoTouch,
      -21474836 ≤ s.maxx - s.x → s.maxx - s.x ≤ 21474836 →
      -21474836 ≤ s.y - s.miny → s.y - s.miny ≤ 21474836 →
      i32min ≤ s.maxx - s.minx → s.maxx - s.minx ≤ i32max →
      i32min ≤ s.maxy - s.miny → s.maxy - s.miny ≤ i32max →
      (s.numlock_hit = true ↔
        (percentOf (s.maxx - s.x) (s.maxx - s.minx) < 5 ∧
         percentOf (s.y - s.miny) (s.maxy - s.miny) < 9))) ∧
    (∀ s : NoTouch,
      -21474836 ≤ s.x - s.minx → s.x - s.minx ≤ 21474836 →
      -21474836 ≤ s.y - s.miny → s.y - s.miny ≤ 21474836 →
      i32min ≤ s.maxx - s.minx → s.maxx - s.minx ≤ i32max →
      i32min ≤ s.maxy - s.miny → s.maxy - s.miny ≤ i32max →
      (s.calculator_hit = true ↔
        (percentOf (s.x - s.minx) (s.maxx - s.minx) < 6 ∧
         percentOf (s.y - s.miny) (s.maxy - s.miny) < 7))) ∧
    NoTouch.numlock_hit ntToggleOff = true ∧
    NoTouch.numlock_hit ntToggleOn = true ∧
    NoTouch.calculator_hit ntToggleOff = false ∧
    resultWorld (press envOk (mkW ntToggleOff)) =
      { mkW ntToggleOff with
        ne := 1
        ni := 1
        trace := [Ev.key 69 1]
        bus := [true]
        nt := { ntToggleOff with numlock := true } } ∧
    resultWorld (press envOk (mkW ntToggleOn)) =
      { mkW ntToggleOn with
        ne := 1
        ni := 1
        trace := [Ev.key 69 0]
        bus := [false]
        nt := { ntToggleOn with numlock := false } } := by
  refine ⟨?_, ?_, by decide, by decide, by decide, by decide, by decide⟩
  · intro s ha1 ha2 hb1 hb2 hw1 hw2 hh1 hh2
    unfold NoTouch.numlock_hit NoTouch.right_percent NoTouch.top_percent
      NoTouch.width NoTouch.height
    have e1 : i32min = -2147483648 := by norm_num [i32min]
    have e2 : i32max = 2147483647 := by norm_num [i32max]
    rw [wrap32_eq_self (s.maxx - s.x) (by omega) (by omega),
        wrap32_eq_self (s.y - s.miny) (by omega) (by omega),
        wrap32_eq_self (s.maxx - s.minx) hw1 hw2,
        wrap32_eq_self (s.maxy - s.miny) hh1 hh2,
        Percent_div_eq_percentOf _ _ ha1 ha2,
        Percent_div_eq_percentOf _ _ hb1 hb2]
    simp [Bool.and_eq_true, decide_eq_true_eq]
  · intro s ha1 ha2 hb1 hb2 hw1 hw2 hh1 hh2
    unfold NoTouch.calculator_hit NoTouch.left_percent NoTouch.top_percent
      NoTouch.width NoTouch.height
    have e1 : i32min = -2147483648 := by norm_num [i32min]
    have e2 : i32max = 2147483647 := by norm_num [i32max]
    rw [wrap32_eq_self (s.x - s.minx) (by omega) (by omega),
        wrap32_eq_self (s.y - s.miny) (by omega) (by omega),
        wrap32_eq_self (s.maxx - s.minx) hw1 hw2,
        wrap32_eq_self (s.maxy - s.miny) hh1 hh2,
        Percent_div_eq_percentOf _ _ ha1 ha2,
        Percent_div_eq_percentOf _ _ hb1 hb2]
    simp [Bool.and_eq_true, decide_eq_true_eq]

/-- C8, witness: the zone characterisation applied at the Scenario B state
(960,50): distance from the right edge is 4 percent, from the top 6
percent. -/
theorem C8_hot_zones_witness :
    NoTouch.numlock_hit ntToggleOff = true ↔
      (percentOf (ntToggleOff.maxx - ntToggleOff.x)
          (ntToggleOff.maxx - ntToggleOff.minx) < 5 ∧
       percentOf (ntToggleOff.y - ntToggleOff.miny)
          (ntToggleOff.maxy - ntToggleOff.miny) < 9) :=
  C8_hot_zones.1 ntToggleOff (by decide) (by decide) (by decide) (by decide)
    (by decide) (by decide) (by decide) (by decide)

/-! ### C3 -/

/-- Contribution of one event to the down/up balance of key code `c`. -/
def contrib (c : Nat) (e : Ev) : Int :=
  if e.etype = 1 ∧ e.code = c then
    (if e.value = 1 then 1 else if e.value = 0 then -1 else 0)
  else 0

/-- Net balance of key-down over key-up events of code `c` in a trace. -/
def netDown : List Ev → Nat → Int
  | [], _ => 0
  | e :: tr, c => contrib c e + netDown tr c

/-- The trace holds a key-down (of a non-indicator code) that has no
matching key-up yet: some key event with value 1 whose code, other than
NUM_LOCK's 69, has a positive net balance. -/
def hasUnmatchedDown (tr : List Ev) : Bool :=
  tr.any fun e =>
    e.etype == 1 && e.value == 1 && e.code != 69 &&
      decide (0 < netDown tr e.code)

theorem netDown_append (tr l : List Ev) (c : Nat) :
    netDown (tr ++ l) c = netDown tr c + netDown l c := by
  induction tr with
  | nil => simp [netDown]
  | cons e tr ih =>
    show contrib c e + netDown (tr ++ l) c = contrib c e + netDown tr c + netDown l c
    rw [ih]
    ring

theorem netDown_pos_exists (tr : List Ev) (c : Nat) (h : 0 < netDown tr c) :
    ∃ e ∈ tr, e.etype = 1 ∧ e.code = c ∧ e.value = 1 := by
  induction tr with
  | nil => simp [netDown] at h
  | cons e tr ih =>
    by_cases he : e.etype = 1 ∧ e.code = c ∧ e.value = 1
    · exact ⟨e, List.mem_cons_self e tr, he⟩
    · have hc : contrib c e ≤ 0 := by
        unfold contrib
        split
        next hcond =>
          split
          next hv => exact absurd ⟨hcond.1, hcond.2, hv⟩ he
          next => split <;> omega
        next => omega
      unfold netDown at h
      obtain ⟨e', hmem, he'⟩ := ih (by omega)
      exact ⟨e', List.mem_cons_of_mem _ hmem, he'⟩

/-- The invariant tying `pressed` to the trace's balance, maintained by
every operation in the all-success environment. -/
def HeldInv (w : World) : Prop :=
  match w.nt.pressed with
  | none =>
    (∀ c : Nat, c ≠ 69 → c ≠ 42 → netDown w.trace c = 0) ∧
    netDown w.trace 42 ≤ 0
  | some k =>
    Key.code k ≠ 69 ∧ Key.code k ≠ 42 ∧
    netDown w.trace (Key.code k) = 1 ∧
    netDown w.trace 42 ≤ (if k = Key.KEY_5 then 1 else 0) ∧
    (∀ c : Nat, c ≠ 69 → c ≠ 42 → c ≠ Key.code k → netDown w.trace c = 0)

theorem key_code_not_modifier (s : NoTouch) (k : Key) (h : s.key = some k) :
    Key.code k ≠ 42 ∧ Key.code k ≠ 69 := by
  unfold NoTouch.key at h
  cases hrow : s.row with
  | none => rw [hrow] at h; exact absurd h (by simp)
  | some l =>
    rw [hrow] at h
    unfold NoTouch.column at h
    cases hc : s.column_raw with
    | none => rw [hc] at h; exact absurd h (by simp)
    | some c =>
      rw [hc] at h
      have hkl : k ∈ l := mem_of_some_getElem _ _ _ h
      have hlK : l ∈ KEYS := by
        have hrow' := hrow
        unfold NoTouch.row at hrow'
        cases hr : s.row_raw with
        | none => rw [hr] at hrow'; exact absurd hrow' (by simp)
        | some r =>
          rw [hr] at hrow'
          exact mem_of_some_getElem _ _ _ hrow'
      have hall : (KEYS.all fun l => l.all fun k =>
          (Key.code k != 42) && (Key.code k != 69)) = true := by decide
      rw [List.all_eq_true] at hall
      have h1 := hall l hlK
      rw [List.all_eq_true] at h1
      have h2 := h1 k hkl
      simp only [Bool.and_eq_true, bne_iff_ne, ne_eq] at h2
      exact h2

theorem contrib_key (c code : Nat) (v : Int) :
    contrib c (Ev.key code v) =
      if code = c then (if v = 1 then 1 else if v = 0 then -1 else 0)
      else 0 := by
  unfold contrib Ev.key
  simp

theorem contrib_syn (c : Nat) : contrib c Ev.syn = 0 := by
  unfold contrib Ev.syn
  simp

theorem envOk_emitOk (n : Nat) : Env.emitOk envOk n = true := rfl

theorem envOk_transferRes (n : Nat) : Env.transferRes envOk n = some 1 := rfl

theorem code_shift : Key.code .KEY_LEFTSHIFT = 42 := rfl

theorem code_numlock : Key.code .KEY_NUMLOCK = 69 := rfl

theorem code_calc : Key.code .KEY_CALC = 140 := rfl

theorem code_five : Key.code .KEY_5 = 6 := rfl

theorem release_envOk_inv (w : World) (hI : HeldInv w) :
    ∃ w', release envOk w = .ok w' ∧ HeldInv w' := by
  cases hp : w.nt.pressed with
  | none =>
    refine ⟨w, ?_, hI⟩
    unfold release
    rw [hp]
  | some k =>
    unfold HeldInv at hI
    rw [hp] at hI
    obtain ⟨h69, h42, h1, h42le, hrest⟩ := hI
    refine ⟨{ w with
        ne := w.ne + 1
        trace := w.trace ++
          [Ev.key (Key.code .KEY_LEFTSHIFT) 0, Ev.key (Key.code k) 0]
        nt := { w.nt with pressed := none } }, ?_, ?_⟩
    · unfold release
      rw [hp]
      unfold emitW
      rw [envOk_emitOk]
      rfl
    · unfold HeldInv
      have hps : ({ w.nt with pressed := none } : NoTouch).pressed =
          (none : Option Key) := rfl
      rw [hps]
      constructor
      · intro c h₆₉ h₄₂
        rw [netDown_append]
        by_cases hck : c = Key.code k
        · subst hck
          rw [h1]
          simp only [netDown, contrib_key, code_shift, add_zero]
          split_ifs <;> omega
        · rw [hrest c h₆₉ h₄₂ hck]
          simp only [netDown, contrib_key, code_shift, add_zero]
          split_ifs <;> omega
      · rw [netDown_append]
        have hb : netDown [Ev.key (Key.code .KEY_LEFTSHIFT) 0,
            Ev.key (Key.code k) 0] 42 ≤ -1 := by
          simp only [netDown, contrib_key, code_shift, add_zero]
          split_ifs <;> omega
        by_cases hk5 : k = Key.KEY_5 <;> simp [hk5] at h42le <;> omega

theorem press_envOk_inv (w : World) (hI : HeldInv w) :
    ∃ w', press envOk w = .ok w' ∧ HeldInv w' := by
  cases hp : w.nt.pressed with
  | some k =>
    refine ⟨w, ?_, hI⟩
    unfold press
    rw [hp]
  | none =>
    have hIn := hI
    unfold HeldInv at hIn
    rw [hp] at hIn
    obtain ⟨hz, h42le⟩ := hIn
    by_cases h1 : w.nt.numlock_hit = true
    · cases hb : w.nt.numlock with
      | false =>
        refine ⟨{ w with
            ne := w.ne + 1
            ni := w.ni + 1
            trace := w.trace ++ [Ev.key (Key.code .KEY_NUMLOCK) 1]
            bus := w.bus ++ [true]
            nt := { w.nt with numlock := true } }, ?_, ?_⟩
        · unfold press
          rw [hp]
          simp [h1, hb, activate, transferW, emitW, envOk_transferRes,
            envOk_emitOk]
        · unfold HeldInv
          have hps : ({ w.nt with numlock := true } : NoTouch).pressed =
              (none : Option Key) := hp
          rw [hps]
          constructor
          · intro c h₆₉ h₄₂
            rw [netDown_append, hz c h₆₉ h₄₂]
            simp only [netDown, contrib_key, code_numlock, add_zero]
            split_ifs <;> omega
          · rw [netDown_append]
            have : netDown [Ev.key (Key.code .KEY_NUMLOCK) 1] 42 = 0 := by
              simp only [netDown, contrib_key, code_numlock, add_zero]
              split_ifs <;> omega
            omega
      | true =>
        refine ⟨{ w with
            ne := w.ne + 1
            ni := w.ni + 1
            trace := w.trace ++ [Ev.key (Key.code .KEY_NUMLOCK) 0]
            bus := w.bus ++ [false]
            nt := { w.nt with numlock := false } }, ?_, ?_⟩
        · unfold press
          rw [hp]
          simp [h1, hb, deactivate, transferW, emitW, envOk_transferRes,
            envOk_emitOk]
        · unfold HeldInv
          have hps : ({ w.nt with numlock := false } : NoTouch).pressed =
              (none : Option Key) := hp
          rw [hps]
          constructor
          · intro c h₆₉ h₄₂
            rw [netDown_append, hz c h₆₉ h₄₂]
            simp only [netDown, contrib_key, code_numlock, add_zero]
            split_ifs <;> omega
          · rw [netDown_append]
            have : netDown [Ev.key (Key.code .KEY_NUMLOCK) 0] 42 = 0 := by
              simp only [netDown, contrib_key, code_numlock, add_zero]
              split_ifs <;> omega
            omega
    · by_cases h2 : w.nt.calculator_hit = true
      · refine ⟨{ w with
            ne := w.ne + 1
            trace := w.trace ++ [Ev.key (Key.code .KEY_CALC) 1, Ev.syn,
              Ev.key (Key.code .KEY_CALC) 0] }, ?_, ?_⟩
        · unfold press
          rw [hp]
          simp [h1, h2, calculator, try_calculator, emitW, envOk_emitOk]
        · unfold HeldInv
          rw [show ({ w with
              ne := w.ne + 1
              trace := w.trace ++ [Ev.key (Key.code .KEY_CALC) 1, Ev.syn,
                Ev.key (Key.code .KEY_CALC) 0] } : World).nt.pressed =
              (none : Option Key) from hp]
          have hburst : ∀ c : Nat, netDown [Ev.key (Key.code .KEY_CALC) 1,
              Ev.syn, Ev.key (Key.code .KEY_CALC) 0] c = 0 := by
            intro c
            simp only [netDown, contrib_key, contrib_syn, code_calc, add_zero]
            split_ifs <;> omega
          constructor
          · intro c h₆₉ h₄₂
            rw [netDown_append, hz c h₆₉ h₄₂, hburst c]
            omega
          · rw [netDown_append, hburst 42]
            omega
      · by_cases h3 : w.nt.numlock = true
        · cases hk : w.nt.key with
          | none =>
            refine ⟨w, ?_, hI⟩
            unfold press
            rw [hp]
            simp [h1, h2, h3, hk]
          | some k =>
            obtain ⟨hk42, hk69⟩ := key_code_not_modifier _ _ hk
            by_cases hk5 : k = Key.KEY_5
            · subst hk5
              refine ⟨{ w with
                  ne := w.ne + 1
                  trace := w.trace ++ [Ev.key (Key.code .KEY_LEFTSHIFT) 1,
                    Ev.key (Key.code .KEY_5) 1]
                  nt := { w.nt with pressed := some Key.KEY_5 } }, ?_, ?_⟩
              · unfold press
                rw [hp]
                simp [h1, h2, h3, hk, emitW, envOk_emitOk]
              · unfold HeldInv
                have hps : ({ w.nt with pressed := some Key.KEY_5 } :
                    NoTouch).pressed = some Key.KEY_5 := rfl
                rw [hps]
                refine ⟨by decide, by decide, ?_, ?_, ?_⟩
                · rw [netDown_append, hz (Key.code Key.KEY_5)
                    (by decide) (by decide)]
                  simp only [netDown, contrib_key, code_shift, code_five,
                    add_zero]
                  split_ifs <;> omega
                · have hpair : netDown [Ev.key (Key.code .KEY_LEFTSHIFT) 1,
                      Ev.key (Key.code .KEY_5) 1] 42 = 1 := by
                    simp only [netDown, contrib_key, code_shift, code_five,
                      add_zero]
                    split_ifs <;> omega
                  have hite : (if Key.KEY_5 = Key.KEY_5 then (1 : Int) else 0)
                      = 1 := by simp
                  rw [netDown_append, hpair, hite]
                  omega
                · intro c h₆₉ h₄₂ hc5
                  rw [netDown_append, hz c h₆₉ h₄₂]
                  rw [code_five] at hc5
                  simp only [netDown, contrib_key, code_shift, code_five,
                    add_zero]
                  split_ifs <;> omega
            · refine ⟨{ w with
                  ne := w.ne + 1
                  trace := w.trace ++ [Ev.key (Key.code k) 1]
                  nt := { w.nt with pressed := some k } }, ?_, ?_⟩
              · unfold press
                rw [hp]
                simp [h1, h2, h3, hk, hk5, emitW, envOk_emitOk]
              · unfold HeldInv
                have hps : ({ w.nt with pressed := some k } :
                    NoTouch).pressed = some k := rfl
                rw [hps]
                refine ⟨hk69, hk42, ?_, ?_, ?_⟩
                · rw [netDown_append, hz (Key.code k) hk69 hk42]
                  simp only [netDown, contrib_key, add_zero]
                  split_ifs <;> omega
                · rw [netDown_append]
                  have : netDown [Ev.key (Key.code k) 1] 42 = 0 := by
                    simp only [netDown, contrib_key, add_zero]
                    split_ifs <;> omega
                  rw [if_neg hk5]
                  omega
                · intro c h₆₉ h₄₂ hck
                  rw [netDown_append, hz c h₆₉ h₄₂]
                  simp only [netDown, contrib_key, add_zero]
                  split_ifs <;> omega
        · refine ⟨w, ?_, hI⟩
          unfold press
          rw [hp]
          simp [h1, h2, h3]

theorem runOp_envOk_inv (w : World) (op : Op) (hI : HeldInv w) :
    ∃ w', runOp envOk w op = .ok w' ∧ HeldInv w' := by
  cases op with
  | press => exact press_envOk_inv w hI
  | release => exact release_envOk_inv w hI
  | setX v =>
    refine ⟨{ w with nt := { w.nt with x := v } }, rfl, ?_⟩
    unfold HeldInv at hI ⊢
    exact hI
  | setY v =>
    refine ⟨{ w with nt := { w.nt with y := v } }, rfl, ?_⟩
    unfold HeldInv at hI ⊢
    exact hI

theorem runOps_envOk_inv (ops : List Op) (w : World) (hI : HeldInv w) :
    ∃ w', runOps envOk w ops = .ok w' ∧ HeldInv w' := by
  induction ops generalizing w with
  | nil => exact ⟨w, rfl, hI⟩
  | cons op rest ih =>
    obtain ⟨w1, h1, hI1⟩ := runOp_envOk_inv w op hI
    obtain ⟨w2, h2, hI2⟩ := ih w1 hI1
    refine ⟨w2, ?_, hI2⟩
    unfold runOps
    rw [h1]
    exact h2

theorem heldInv_iff (w : World) (hI : HeldInv w) :
    w.nt.pressed.isSome = hasUnmatchedDown w.trace := by
  cases hp : w.nt.pressed with
  | none =>
    unfold HeldInv at hI
    rw [hp] at hI
    obtain ⟨hz, h42⟩ := hI
    show false = hasUnmatchedDown w.trace
    symm
    unfold hasUnmatchedDown
    rw [List.any_eq_false]
    intro e hmem hpred
    simp only [Bool.and_eq_true, beq_iff_eq, bne_iff_ne, ne_eq,
      decide_eq_true_eq] at hpred
    obtain ⟨⟨⟨he1, hev⟩, hc69⟩, hpos⟩ := hpred
    by_cases hc42 : e.code = 42
    · rw [hc42] at hpos
      omega
    · rw [hz e.code hc69 hc42] at hpos
      omega
  | some k =>
    unfold HeldInv at hI
    rw [hp] at hI
    obtain ⟨h69, h42, h1, hle, hrest⟩ := hI
    show true = hasUnmatchedDown w.trace
    symm
    unfold hasUnmatchedDown
    rw [List.any_eq_true]
    obtain ⟨e, hmem, he1, hec, hev⟩ :=
      netDown_pos_exists w.trace (Key.code k) (by omega)
    refine ⟨e, hmem, ?_⟩
    simp only [Bool.and_eq_true, beq_iff_eq, bne_iff_ne, ne_eq,
      decide_eq_true_eq]
    rw [hec]
    exact ⟨⟨⟨he1, hev⟩, h69⟩, by rw [h1]; omega⟩

/-- C3, amended: starting from a fresh controller (empty trace, no key
held), after any sequence of touch-down, touch-up and position operations
run in the all-success environment, `pressed` is `some` exactly when the
trace holds a key-down (of a code other than the NUM_LOCK indicator's)
without a matching key-up; a failing release emission breaks this: it
clears `pressed` while leaving the key-down unmatched (see the
counterexample). -/
theorem C3_held_iff_unmatched_down (ops : List Op) (w : World)
    (ht : w.trace = []) (hp : w.nt.pressed = none) :
    (resultWorld (runOps envOk w ops)).nt.pressed.isSome =
      hasUnmatchedDown (resultWorld (runOps envOk w ops)).trace := by
  have hI : HeldInv w := by
    unfold HeldInv
    rw [hp, ht]
    exact ⟨fun c _ _ => rfl, le_refl 0⟩
  obtain ⟨w', hrun, hI'⟩ := runOps_envOk_inv ops w hI
  rw [hrun]
  exact heldInv_iff w' hI'

/-- C3, witness: one successful grid press from the fresh state — KP3 is
held and its down event is unmatched in the trace. -/
theorem C3_held_iff_witness :
    (mkW ntA).trace = [] ∧ (mkW ntA).nt.pressed = none ∧
    (resultWorld (runOps envOk (mkW ntA) [.press])).nt.pressed.isSome =
      hasUnmatchedDown (resultWorld (runOps envOk (mkW ntA) [.press])).trace :=
  ⟨rfl, rfl, C3_held_iff_unmatched_down [.press] (mkW ntA) rfl rfl⟩

/-- C3, counterexample: press at the KP3 cell succeeds (KP3-down emitted),
then the touch-up's emission fails: the call returns an error, `pressed`
has already been cleared by `take()`, and the trace still holds the
unmatched KP3 down — `heldKey` is `None` while a key-down has no matching
key-up, refuting the claimed invariant for erroring sequences. -/
theorem C3_failed_release_counterexample :
    isErr (runOps ⟨[true, false], []⟩ (mkW ntA) [.press, .release]) = true ∧
    (resultWorld (runOps ⟨[true, false], []⟩ (mkW ntA)
      [.press, .release])).nt.pressed = none ∧
    (resultWorld (runOps ⟨[true, false], []⟩ (mkW ntA)
      [.press, .release])).trace = [Ev.key 81 1] ∧
    hasUnmatchedDown [Ev.key 81 1] = true := by decide
